import Mathlib

/-!
Verification of the heuristic performance scanner of
`src/backend/code_analyzer.py` (class `CodeAnalyzer`).

The scanner operates on CPython abstract syntax trees produced by
`ast.parse`.  We embed the tree shape the scanner inspects: each node has a
kind, a source line number (`lineno`), and the ordered list of child nodes as
yielded by `ast.iter_child_nodes` (field order).  Node kinds the analyzer
branches on (`ast.For`, `ast.While`, `ast.If`, `ast.ExceptHandler`,
`ast.FunctionDef`, `ast.Call`, `ast.Attribute`, `ast.Name`) get their own
constructors; every other node kind is carried as `other tag`.
-/

namespace CodeAnalyzer

/-- Kinds of AST nodes, as distinguished by the `isinstance` checks in
`code_analyzer.py`.  `attribute a` carries the attribute name string
(`node.func.attr`), `name id` the identifier (`ast.Name`). -/
inductive NodeKind where
  | module : NodeKind
  | forStmt : NodeKind
  | whileStmt : NodeKind
  | ifStmt : NodeKind
  | exceptHandler : NodeKind
  | functionDef : NodeKind
  | call : NodeKind
  | attribute (attr : String) : NodeKind
  | name (id : String) : NodeKind
  | other (tag : String) : NodeKind
deriving DecidableEq, Repr

/-- An AST node: kind, `lineno`, and children in `ast.iter_child_nodes`
order (for an `ast.Call` the first child is `node.func`; for an
`ast.Attribute` the first child is `node.value`). -/
inductive Node where
  | mk (kind : NodeKind) (lineno : Nat) (children : List Node)

/-- Node kind accessor. -/
def Node.kind : Node → NodeKind
  | .mk k _ _ => k

/-- Node line-number accessor (`node.lineno`). -/
def Node.lineno : Node → Nat
  | .mk _ l _ => l

/-- Node children accessor (`ast.iter_child_nodes(node)` order). -/
def Node.children : Node → List Node
  | .mk _ _ cs => cs

/-- `isinstance(node, ast.For) or isinstance(node, ast.While)`. -/
def isLoopKind : NodeKind → Bool
  | .forStmt => true
  | .whileStmt => true
  | _ => false

/-- A finding dict as built by `analyze_performance`: keys `type`, `line`,
`message`, `suggestion`. -/
structure Finding where
  type : String
  line : Nat
  message : String
  suggestion : String
deriving DecidableEq, Repr

/-- The `NestedLoop` finding appended at `code_analyzer.py:109-114`. -/
def nestedLoopFinding (line : Nat) : Finding :=
  { type := "NestedLoop"
    line := line
    message := "Nested loop detected"
    suggestion := "Consider using alternative approaches like list comprehension or vectorized operations." }

/-- The `IneffientListOperation` finding appended at
`code_analyzer.py:122-127`. -/
def ineffFinding (line : Nat) : Finding :=
  { type := "IneffientListOperation"
    line := line
    message := "List append in loop"
    suggestion := "Consider using list comprehension or pre-allocating the list." }

/-- The `AnalysisError` finding appended by the `except` block of
`analyze_performance` (`code_analyzer.py:97-102`); `e` is `str(e)` for the
caught exception. -/
def analysisErrorFinding (e : String) : Finding :=
  { type := "AnalysisError"
    line := 0
    message := "Failed to analyze performance: " ++ e
    suggestion := "Ensure the code is syntactically correct." }

/-- The test at `code_analyzer.py:117-119`: the node is an `ast.Call`, its
`func` is an `ast.Attribute` whose `attr` equals `append`, and the `value`
of that attribute is an `ast.Name`.  In `ast.iter_child_nodes` order the
`func` of a call is its first child, and the `value` of an attribute is its
first child. -/
def isAppendCall (n : Node) : Bool :=
  match n.kind, n.children with
  | .call, f :: _ =>
    match f.kind, f.children with
    | .attribute a, v :: _ => a == "append" && isLoopKindTarget v
    | _, _ => false
  | _, _ => false
where
  /-- `isinstance(node.func.value, ast.Name)`. -/
  isLoopKindTarget (v : Node) : Bool :=
    match v.kind with
    | .name _ => true
    | _ => false

/-- The chain of objects reached from `n` by repeatedly reading a `parent`
attribute, as walked by `_is_in_loop` (`code_analyzer.py:136-142`).
The `ast.parse` function of CPython does not set a `parent` attribute on the nodes it
returns (adding parent links requires a separate pass, which
`code_analyzer.py` never performs; only the unused `astroid` trees carry
parents), so for every node the scanner visits `hasattr(parent, "parent")`
is false at the first test and the chain is empty. -/
def parentChain (_ : Node) : List Node := []

/-- `_is_in_loop` (`code_analyzer.py:136-142`): walk successive `parent`
attributes and return true as soon as one is an `ast.For` or `ast.While`. -/
def is_in_loop (n : Node) : Bool :=
  (parentChain n).any fun p => isLoopKind p.kind

/-- Findings the visit of a single node appends before recursing
(`code_analyzer.py:106-127`): the nested-loop check, then the inefficient
list-operation check. -/
def ownFindings (n : Node) (depth : Nat) : List Finding :=
  (if isLoopKind n.kind && decide (depth > 0) then [nestedLoopFinding n.lineno] else [])
    ++ (if isAppendCall n && is_in_loop n then [ineffFinding n.lineno] else [])

mutual

/-- `_analyze_node` (`code_analyzer.py:105-134`), with the mutable `issues`
list rendered as the returned finding list: the own findings of the node followed
by those of the children, where descending into an `ast.For`/`ast.While`
child uses `depth + 1` and any other child keeps `depth`. -/
def analyzeNode : Node → Nat → List Finding
  | .mk k ln cs, depth =>
    ownFindings (.mk k ln cs) depth ++ analyzeChildren cs depth

/-- The `for child in ast.iter_child_nodes(node)` loop of `_analyze_node`
(`code_analyzer.py:129-134`). -/
def analyzeChildren : List Node → Nat → List Finding
  | [], _ => []
  | c :: cs, depth =>
    analyzeNode c (if isLoopKind c.kind then depth + 1 else depth)
      ++ analyzeChildren cs depth

end

/-- `analyze_performance` (`code_analyzer.py:91-103`), taking the outcome of
`ast.parse(code)`: `.error e` is a `SyntaxError` with `str(e) = e`, `.ok t`
a successfully parsed tree.  On a parse error the walk never runs and the
`except` block yields the single `AnalysisError` finding. -/
def analyze_performance : Except String Node → List Finding
  | .error e => [analysisErrorFinding e]
  | .ok t => analyzeNode t 0

/-!
Fault model.  `analyze_performance` wraps the whole walk in
`try ... except Exception as e`, and `_analyze_node` appends into the shared
mutable `performance_issues` list.  A runtime fault during the walk (for
example a `RecursionError` on deeply nested input) aborts the recursion, but
the findings already appended stay in `performance_issues`; the `except`
block then appends the `AnalysisError` finding to that same list.  We model
the fault source as an oracle telling at which visited node (if any) the
runtime raises, and what `str(e)` is; the `.error` outcome carries the
contents of `performance_issues` at the moment the exception is raised.
-/

mutual

/-- `_analyze_node` under the fault oracle: `acc` is the current contents of
the shared `performance_issues` list; a fault at the visited node aborts with
the list as accumulated so far. -/
def analyzeNodeF (oracle : Node → Option String) :
    Node → Nat → List Finding → Except (List Finding × String) (List Finding)
  | .mk k ln cs, depth, acc =>
    match oracle (.mk k ln cs) with
    | some msg => .error (acc, msg)
    | none => analyzeChildrenF oracle cs depth (acc ++ ownFindings (.mk k ln cs) depth)

/-- The child loop of `_analyze_node` under the fault oracle. -/
def analyzeChildrenF (oracle : Node → Option String) :
    List Node → Nat → List Finding → Except (List Finding × String) (List Finding)
  | [], _, acc => .ok acc
  | c :: cs, depth, acc =>
    match analyzeNodeF oracle c (if isLoopKind c.kind then depth + 1 else depth) acc with
    | .error e => .error e
    | .ok acc' => analyzeChildrenF oracle cs depth acc'

end

/-- `analyze_performance` under the fault oracle: on a fault during the walk
the `except` block (`code_analyzer.py:96-102`) appends the `AnalysisError`
finding to the findings already in the shared list. -/
def analyze_performanceF (oracle : Node → Option String) :
    Except String Node → List Finding
  | .error e => [analysisErrorFinding e]
  | .ok t =>
    match analyzeNodeF oracle t 0 [] with
    | .ok fs => fs
    | .error (fs, e) => fs ++ [analysisErrorFinding e]

/-!  Complexity summarizer (`get_code_complexity`, `code_analyzer.py:144-159`). -/

/-- The result dict of `get_code_complexity`: keys `cyclomatic`,
`number_of_functions`, `lines_of_code`. -/
structure Complexity where
  cyclomatic : Nat
  number_of_functions : Nat
  lines_of_code : Nat
deriving DecidableEq, Repr

/-- `isinstance(node, (ast.If, ast.While, ast.For, ast.ExceptHandler))`. -/
def isDecisionKind : NodeKind → Bool
  | .ifStmt => true
  | .whileStmt => true
  | .forStmt => true
  | .exceptHandler => true
  | _ => false

/-- `isinstance(node, ast.FunctionDef)`. -/
def isFunctionDefKind : NodeKind → Bool
  | .functionDef => true
  | _ => false

/-- Total number of nodes in a forest; termination measure for the
breadth-first `ast.walk`. -/
def sizeListN : List Node → Nat
  | [] => 0
  | .mk _ _ cs :: rest => 1 + sizeListN cs + sizeListN rest

theorem sizeListN_append (a b : List Node) :
    sizeListN (a ++ b) = sizeListN a + sizeListN b := by
  induction a with
  | nil => simp [sizeListN]
  | cons n rest ih =>
    cases n with
    | mk k ln cs => simp [sizeListN, ih]; omega

/-- `ast.walk(tree)` (used at `code_analyzer.py:153`): breadth-first
enumeration of all nodes, realized with a queue seeded with the root;
each dequeued node is yielded and its children enqueued. -/
def walkList : List Node → List Node
  | [] => []
  | .mk k ln cs :: rest => .mk k ln cs :: walkList (rest ++ cs)
termination_by ns => sizeListN ns
decreasing_by
  simp [sizeListN, sizeListN_append]; omega

/-- The counting loop of `get_code_complexity` (`code_analyzer.py:153-157`):
one pass over `ast.walk(tree)`; decision points bump `cyclomatic`, otherwise
`ast.FunctionDef` bumps `number_of_functions`. -/
def complexityCounts : List Node → Nat × Nat → Nat × Nat
  | [], acc => acc
  | n :: rest, (cyc, fns) =>
    if isDecisionKind n.kind then complexityCounts rest (cyc + 1, fns)
    else if isFunctionDefKind n.kind then complexityCounts rest (cyc, fns + 1)
    else complexityCounts rest (cyc, fns)

/-- `get_code_complexity` (`code_analyzer.py:144-159`) on a successfully
parsed tree.  `linesOfCode` stands for `len(code.splitlines())`, the only
use the function makes of the raw source text. -/
def get_code_complexity (tree : Node) (linesOfCode : Nat) : Complexity :=
  let counts := complexityCounts (walkList [tree]) (0, 0)
  { cyclomatic := counts.1
    number_of_functions := counts.2
    lines_of_code := linesOfCode }

/-!  Spec-side structural node counts, written from the words of the spec: the
cyclomatic count is "the number of conditional, loop, and exception-handler
nodes in the tree", the function count "the number of function-definition
nodes". -/

mutual

/-- Number of nodes of the tree whose kind satisfies `p` (structural count,
spec side). -/
def countNode (p : NodeKind → Bool) : Node → Nat
  | .mk k _ cs => (if p k then 1 else 0) + countChildren p cs

/-- Number of nodes of the forest whose kind satisfies `p`. -/
def countChildren (p : NodeKind → Bool) : List Node → Nat
  | [] => 0
  | c :: cs => countNode p c + countChildren p cs

end

/-!  Structural predicates used to state the claims about loop-free and
append-free inputs. -/

mutual

/-- The tree contains an `ast.For` or `ast.While` node. -/
def hasLoopNode : Node → Bool
  | .mk k _ cs => isLoopKind k || hasLoopChildren cs

/-- The forest contains an `ast.For` or `ast.While` node. -/
def hasLoopChildren : List Node → Bool
  | [] => false
  | c :: cs => hasLoopNode c || hasLoopChildren cs

end

mutual

/-- The tree contains a method call `<name>.append(...)`. -/
def hasAppendCall : Node → Bool
  | .mk k ln cs => isAppendCall (.mk k ln cs) || hasAppendChildren cs

/-- The forest contains a method call `<name>.append(...)`. -/
def hasAppendChildren : List Node → Bool
  | [] => false
  | c :: cs => hasAppendCall c || hasAppendChildren cs

end

/-!  Concrete parse trees for the test inputs, laid out exactly as
`ast.parse` builds them (children in `ast.iter_child_nodes` order, contexts
included). -/

/-- `ast.Load()` context node. -/
def loadCtx : Node := .mk (.other "Load") 0 []

/-- `ast.Store()` context node. -/
def storeCtx : Node := .mk (.other "Store") 0 []

/-- An `ast.Name` node: children are just its context. -/
def nameNode (id : String) (ln : Nat) (ctx : Node) : Node :=
  .mk (.name id) ln [ctx]

/-- The call `range(<arg>)` at line `ln`. -/
def rangeCall (ln : Nat) (arg : Node) : Node :=
  .mk .call ln [nameNode "range" ln loadCtx, arg]

/-- An `ast.Constant` literal. -/
def constNode (ln : Nat) : Node := .mk (.other "Constant") ln []

/-- An `ast.Pass` statement. -/
def passNode (ln : Nat) : Node := .mk (.other "Pass") ln []

/-- `ast.parse` result for
`for i in range(2):\n    pass`
(a single loop, nothing nested). -/
def treeSingleLoop : Node :=
  .mk .module 0
    [.mk .forStmt 1
      [nameNode "i" 1 storeCtx, rangeCall 1 (constNode 1), passNode 2]]

/-- `ast.parse` result for
`for i in range(2):\n    for j in range(2):\n        pass`
(two levels of nesting; outer loop line 1, inner loop line 2). -/
def treeTwoNested : Node :=
  .mk .module 0
    [.mk .forStmt 1
      [nameNode "i" 1 storeCtx, rangeCall 1 (constNode 1),
        .mk .forStmt 2
          [nameNode "j" 2 storeCtx, rangeCall 2 (constNode 2), passNode 3]]]

/-- `ast.parse` result for a triply-nested loop
(loops at lines 1, 2 and 3). -/
def treeThreeNested : Node :=
  .mk .module 0
    [.mk .forStmt 1
      [nameNode "i" 1 storeCtx, rangeCall 1 (constNode 1),
        .mk .forStmt 2
          [nameNode "j" 2 storeCtx, rangeCall 2 (constNode 2),
            .mk .forStmt 3
              [nameNode "k" 3 storeCtx, rangeCall 3 (constNode 3),
                passNode 4]]]]

/-- The call `result.append(i)` at line 1: `func` is
`Attribute(value=Name(result), attr=append)`. -/
def appendCallNode : Node :=
  .mk .call 1
    [.mk (.attribute "append") 1 [nameNode "result" 1 loadCtx, loadCtx],
      nameNode "i" 1 loadCtx]

/-- `ast.parse` result for
`for i in range(n): result.append(i)`
(everything on line 1; the append call sits under an `ast.Expr` statement). -/
def treeAppendLoop : Node :=
  .mk .module 0
    [.mk .forStmt 1
      [nameNode "i" 1 storeCtx, rangeCall 1 (nameNode "n" 1 loadCtx),
        .mk (.other "Expr") 1 [appendCallNode]]]

/-- A fault oracle that raises at the first `ast.Pass` node visited, with a
`RecursionError`-style description. -/
def faultAtPass : Node → Option String :=
  fun n =>
    match n.kind with
    | .other "Pass" => some "maximum recursion depth exceeded"
    | _ => none

/-- `ast.parse` result for the empty input: `Module(body=[])`. -/
def emptyModule : Node := .mk .module 0 []

end CodeAnalyzer

/-!
Helper lemmas about the walk.
-/

namespace CodeAnalyzer

/-- The per-node findings reduce to the nested-loop check alone: the
inefficient-list branch never fires because `_is_in_loop` always returns
false on nodes of an `ast.parse` tree. -/
theorem ownFindings_eq (n : Node) (d : Nat) :
    ownFindings n d
      = if isLoopKind n.kind && decide (d > 0) then [nestedLoopFinding n.lineno] else [] := by
  simp [ownFindings, is_in_loop, parentChain]

mutual

/-- Every finding the walk emits is a `NestedLoop` finding at some line. -/
theorem analyzeNode_mem :
    ∀ (t : Node) (d : Nat) (f : Finding), f ∈ analyzeNode t d → ∃ l, f = nestedLoopFinding l
  | .mk k ln cs, d, f => by
    intro hf
    rw [analyzeNode] at hf
    rcases List.mem_append.mp hf with h | h
    · rw [ownFindings_eq] at h
      split at h
      · exact ⟨_, List.mem_singleton.mp h⟩
      · simp at h
    · exact analyzeChildren_mem cs d f h

/-- Forest version of `analyzeNode_mem`. -/
theorem analyzeChildren_mem :
    ∀ (ts : List Node) (d : Nat) (f : Finding),
      f ∈ analyzeChildren ts d → ∃ l, f = nestedLoopFinding l
  | [], _, f => by intro h; simp [analyzeChildren] at h
  | c :: cs, d, f => by
    intro hf
    rw [analyzeChildren] at hf
    rcases List.mem_append.mp hf with h | h
    · exact analyzeNode_mem c _ f h
    · exact analyzeChildren_mem cs d f h

end

mutual

/-- A tree without `ast.For`/`ast.While` nodes yields no findings at any
depth. -/
theorem analyzeNode_eq_nil :
    ∀ (t : Node) (d : Nat), hasLoopNode t = false → analyzeNode t d = []
  | .mk k ln cs, d => by
    intro h
    rw [hasLoopNode, Bool.or_eq_false_iff] at h
    rw [analyzeNode, ownFindings_eq]
    simp [Node.kind, h.1, analyzeChildren_eq_nil cs d h.2]

/-- Forest version of `analyzeNode_eq_nil`. -/
theorem analyzeChildren_eq_nil :
    ∀ (ts : List Node) (d : Nat), hasLoopChildren ts = false → analyzeChildren ts d = []
  | [], _ => by intro _; rw [analyzeChildren]
  | c :: cs, d => by
    intro h
    rw [hasLoopChildren, Bool.or_eq_false_iff] at h
    rw [analyzeChildren, analyzeNode_eq_nil c _ h.1, analyzeChildren_eq_nil cs d h.2]
    rfl

end

mutual

/-- With no fault, the fault-aware walk computes exactly the plain walk,
appended to the accumulator. -/
theorem analyzeNodeF_none :
    ∀ (t : Node) (d : Nat) (acc : List Finding),
      analyzeNodeF (fun _ => none) t d acc = .ok (acc ++ analyzeNode t d)
  | .mk k ln cs, d, acc => by
    exact (analyzeChildrenF_none cs d (acc ++ ownFindings (.mk k ln cs) d)).trans
      (by rw [analyzeNode, List.append_assoc])

/-- Forest version of `analyzeNodeF_none`. -/
theorem analyzeChildrenF_none :
    ∀ (ts : List Node) (d : Nat) (acc : List Finding),
      analyzeChildrenF (fun _ => none) ts d acc = .ok (acc ++ analyzeChildren ts d)
  | [], _, acc => by rw [analyzeChildrenF, analyzeChildren, List.append_nil]
  | c :: cs, d, acc => by
    rw [analyzeChildrenF, analyzeNodeF_none c _ acc]
    exact (analyzeChildrenF_none cs d _).trans
      (by rw [analyzeChildren, List.append_assoc])

end

/-- The fault model is conservative: with no fault it coincides with the
plain `analyze_performance`. -/
theorem analyze_performanceF_none (p : Except String Node) :
    analyze_performanceF (fun _ => none) p = analyze_performance p := by
  cases p with
  | error e => rfl
  | ok t =>
    rw [analyze_performanceF, analyze_performance, analyzeNodeF_none t 0 []]
    rfl

/-!
Helper lemmas for the complexity summarizer.
-/

/-- `countChildren` is additive over forest concatenation. -/
theorem countChildren_append (p : NodeKind → Bool) (a b : List Node) :
    countChildren p (a ++ b) = countChildren p a + countChildren p b := by
  induction a with
  | nil => simp [countChildren]
  | cons c cs ih => simp [countChildren, ih]; omega

/-- Counting over the breadth-first `ast.walk` enumeration agrees with the
structural count: `walkList` visits every node exactly once. -/
theorem countP_walkList (p : NodeKind → Bool) :
    ∀ ns : List Node, (walkList ns).countP (fun n => p n.kind) = countChildren p ns
  | [] => by rw [walkList]; rfl
  | .mk k ln cs :: rest => by
    rw [walkList, List.countP_cons, countP_walkList p (rest ++ cs), countChildren_append]
    simp [countChildren, countNode, Node.kind]
    by_cases hp : p k = true <;> simp [hp] <;> omega
termination_by ns => sizeListN ns
decreasing_by simp [sizeListN, sizeListN_append]; omega

/-- The `elif` at `code_analyzer.py:156` never shadows a decision point: no
node kind is both a decision point and a function definition. -/
theorem decision_not_functionDef (k : NodeKind) (h : isDecisionKind k = true) :
    isFunctionDefKind k = false := by
  cases k <;> simp_all [isDecisionKind, isFunctionDefKind]

/-- The counting loop of `get_code_complexity` computes, over any node list,
the number of decision points and the number of function definitions. -/
theorem complexityCounts_eq (ns : List Node) :
    ∀ cyc fns : Nat,
      complexityCounts ns (cyc, fns)
        = (cyc + ns.countP (fun n => isDecisionKind n.kind),
           fns + ns.countP (fun n => isFunctionDefKind n.kind)) := by
  induction ns with
  | nil => intro cyc fns; simp [complexityCounts]
  | cons n rest ih =>
    intro cyc fns
    rw [complexityCounts]
    cases hd : isDecisionKind n.kind with
    | true =>
      have hf : isFunctionDefKind n.kind = false := decision_not_functionDef _ hd
      simp [hd, hf, ih, List.countP_cons]
      omega
    | false =>
      cases hf : isFunctionDefKind n.kind with
      | true => simp [hd, hf, ih, List.countP_cons]; omega
      | false => simp [hd, hf, ih, List.countP_cons]

end CodeAnalyzer

/-!
Claim theorems.
-/

namespace CodeAnalyzer

/-- C1: the claim says a two-level nested loop yields exactly one
`NestedLoop` finding, at the line of the inner loop, and the outer loop is
not flagged.  The code disagrees: on the two-level input
`for i in range(2):\n    for j in range(2):\n        pass`
it emits two `NestedLoop` findings, one at line 1 (the outer loop) and one
at line 2 (the inner loop) — the depth counter is already incremented when
the walk descends into a loop child, so `depth > 0` holds at every loop
node, including the outermost. -/
theorem c1_two_level_input_flags_both_loops :
    analyze_performance (.ok treeTwoNested) = [nestedLoopFinding 1, nestedLoopFinding 2]
      ∧ (analyze_performance (.ok treeTwoNested)).length ≠ 1 := ⟨rfl, by decide⟩

/-- C2: the claim says `for i in range(n): result.append(i)` yields exactly
one `IneffientListOperation` finding at the line of the append call.  The
code disagrees: `_is_in_loop` inspects `parent` attributes that `ast.parse`
never sets, so no `IneffientListOperation` finding is ever produced; on this
input the scanner instead returns a single spurious `NestedLoop` finding at
line 1. -/
theorem c2_append_in_loop_never_reported :
    analyze_performance (.ok treeAppendLoop) = [nestedLoopFinding 1]
      ∧ (analyze_performance (.ok treeAppendLoop)).filter
          (fun f => f.type == "IneffientListOperation") = [] := ⟨rfl, rfl⟩

/-- C3 counterexample: a fault during the walk (here at the `ast.Pass` node
of a two-level nested loop) does not discard the findings accumulated before
it — the result has three findings, not the single `AnalysisError` finding
the claim announces. -/
theorem c3_counterexample :
    analyze_performanceF faultAtPass (.ok treeTwoNested)
        = [nestedLoopFinding 1, nestedLoopFinding 2,
            analysisErrorFinding "maximum recursion depth exceeded"]
      ∧ (analyze_performanceF faultAtPass (.ok treeTwoNested)).length ≠ 1 := ⟨rfl, by decide⟩

/-- C3 (amended): when a fault occurs during the tree walk, the findings
accumulated before the fault are retained, and a single `AnalysisError`
finding at line 0 is appended after them; no exception propagates past the
scan boundary. -/
theorem c3_fault_retains_findings (oracle : Node → Option String) (t : Node)
    (fs : List Finding) (e : String)
    (h : analyzeNodeF oracle t 0 [] = .error (fs, e)) :
    analyze_performanceF oracle (.ok t) = fs ++ [analysisErrorFinding e] := by
  rw [analyze_performanceF, h]

/-- C3 witness: the amended statement applied to the concrete faulting run
of `c3_counterexample`. -/
theorem c3_witness :
    analyzeNodeF faultAtPass treeTwoNested 0 []
        = .error ([nestedLoopFinding 1, nestedLoopFinding 2], "maximum recursion depth exceeded")
      ∧ analyze_performanceF faultAtPass (.ok treeTwoNested)
        = [nestedLoopFinding 1, nestedLoopFinding 2]
            ++ [analysisErrorFinding "maximum recursion depth exceeded"] :=
  ⟨rfl, c3_fault_retains_findings faultAtPass treeTwoNested
    [nestedLoopFinding 1, nestedLoopFinding 2] "maximum recursion depth exceeded" rfl⟩

/-- C4 counterexample: on a parse failure the suggestion text of the single
finding is the fixed string, not the message of the parser. -/
theorem c4_counterexample :
    (analyze_performance (.error "invalid syntax")).map Finding.suggestion
        = ["Ensure the code is syntactically correct."]
      ∧ "Ensure the code is syntactically correct." ≠ "invalid syntax" := ⟨rfl, by decide⟩

/-- C4 (amended): for every input that fails to parse, the scanner performs
no tree walk and returns exactly one finding, of category `AnalysisError` at
line 0, whose message embeds the error message of the parser after the
prefix `Failed to analyze performance: `, and whose suggestion is the fixed
string `Ensure the code is syntactically correct.`. -/
theorem c4_parse_failure_single_error_finding (e : String) :
    analyze_performance (.error e)
      = [{ type := "AnalysisError", line := 0,
            message := "Failed to analyze performance: " ++ e,
            suggestion := "Ensure the code is syntactically correct." }] := rfl

/-- C5: the claim says a single loop with nothing nested and no append is
silent.  The code disagrees: on
`for i in range(2):\n    pass`
it emits one `NestedLoop` finding at line 1, because every loop node is
reached with `depth` already incremented. -/
theorem c5_non_nested_loop_flagged :
    analyze_performance (.ok treeSingleLoop) = [nestedLoopFinding 1]
      ∧ analyze_performance (.ok treeSingleLoop) ≠ [] := ⟨rfl, by decide⟩

/-- C6: the claim says a triply-nested loop yields exactly two `NestedLoop`
findings, with the outermost loop not flagged.  The code disagrees: it
emits three findings, at the lines of all three loops, the outermost
included. -/
theorem c6_triple_nested_three_findings :
    analyze_performance (.ok treeThreeNested)
        = [nestedLoopFinding 1, nestedLoopFinding 2, nestedLoopFinding 3]
      ∧ (analyze_performance (.ok treeThreeNested)).length ≠ 2 := ⟨rfl, by decide⟩

/-- C7: `analyze_performance` never emits an `IneffientListOperation`
finding, whatever the parse outcome: `_is_in_loop` walks `parent`
attributes that the standard parser never sets, so the enclosing-loop check
fails at every call node. -/
theorem c7_never_emits_ineff (p : Except String Node) :
    (analyze_performance p).filter (fun f => f.type == "IneffientListOperation") = [] := by
  cases p with
  | error e => rfl
  | ok t =>
    rw [analyze_performance]
    rw [List.filter_eq_nil_iff]
    intro f hf
    obtain ⟨l, rfl⟩ := analyzeNode_mem t 0 f hf
    show ¬(("NestedLoop" == "IneffientListOperation") = true)
    decide

/-- C8: for every syntactically valid input containing no loop construct
and no append call, the scan returns an empty finding sequence. -/
theorem c8_no_loop_no_append_empty (t : Node)
    (h1 : hasLoopNode t = false) (_h2 : hasAppendCall t = false) :
    analyze_performance (.ok t) = [] := by
  rw [analyze_performance]
  exact analyzeNode_eq_nil t 0 h1

/-- C8 witness: the empty input parses to `Module(body=[])`, which has no
loop and no append call, and scans to the empty sequence. -/
theorem c8_witness :
    hasLoopNode emptyModule = false ∧ hasAppendCall emptyModule = false
      ∧ analyze_performance (.ok emptyModule) = [] :=
  ⟨rfl, rfl, c8_no_loop_no_append_empty emptyModule rfl rfl⟩

/-- C9: the scan is deterministic — two invocations on identical input
yield identical finding sequences; the embedding has no state shared across
calls. -/
theorem c9_deterministic (p q : Except String Node) (h : p = q) :
    analyze_performance p = analyze_performance q := by rw [h]

/-- C9 witness: the determinism statement applied to a concrete input. -/
theorem c9_witness :
    analyze_performance (.ok treeTwoNested) = analyze_performance (.ok treeTwoNested) :=
  c9_deterministic (.ok treeTwoNested) (.ok treeTwoNested) rfl

/-- C10: for every parsed tree, `get_code_complexity` returns the number of
conditional, loop and exception-handler nodes as `cyclomatic`, the number of
function-definition nodes as `number_of_functions`, and the line count of
the source text as `lines_of_code`. -/
theorem c10_complexity_counts (t : Node) (linesOfCode : Nat) :
    get_code_complexity t linesOfCode
      = { cyclomatic := countNode isDecisionKind t
          number_of_functions := countNode isFunctionDefKind t
          lines_of_code := linesOfCode } := by
  simp only [get_code_complexity]
  rw [complexityCounts_eq]
  simp [countP_walkList, countChildren]

end CodeAnalyzer
